import Mathlib

/-!
Verification of the irc-downloader download engine against its source.

The embedding below models, as pure Lean functions over `List Char` /
`List Nat` (bytes), the code in `src/dcc.rs`, `src/server.rs` and
`src/main.rs`:

* the DCC SEND offer parser (`REX_DCC_SEND` and `DccSend::from_str`);
* the transfer executor `DccSend::download`, as a function from an
  environment describing the network and filesystem interactions to the
  trace of observable events (messages sent, peer accepted, handshake
  bytes written, file bytes written, progress values published) and an
  outcome (`ok`, `fail`, `panicked` for a Rust `unwrap` on `None`,
  `incomplete` when the supplied read script ends while still streaming);
* the per-server download registry operations
  (`mark_downloads_delayed`, `handle_sender_gone`, `abort_download`,
  the throttling resend loop, and the inline offer-dispatch logic of
  `main`), with the `DashMap` modelled as a list of entries in iteration
  order and `Instant` as a natural number of seconds.

Machine integers are modelled as `Nat` with explicit bounds
(`parseBounded`); `usize` is taken to be 64 bits wide as on the
targets the crate builds for.
-/

namespace IrcDownloader

/-! ### Character classes of the regex `REX_DCC_SEND` (src/dcc.rs:13-16)

`\s` is Unicode White_Space (the full list below); `\d` is modelled on the
ASCII range (Rust's regex crate would also admit other Unicode `Nd`
digits, but those never parse as integers in `from_str`, and every input
in the claims is ASCII).  `(?i)` is modelled as ASCII case folding, which
agrees with the crate's simple case folding on the ASCII letters of the
literal `DCC SEND`. -/

def rexSpace (c : Char) : Bool :=
  let n := c.toNat
  (9 ≤ n && n ≤ 13) || n == 32 || n == 133 || n == 160 || n == 5760
    || (8192 ≤ n && n ≤ 8202) || n == 8232 || n == 8233 || n == 8239
    || n == 8287 || n == 12288

def rexDigit (c : Char) : Bool :=
  c.isDigit

def lowerChar (c : Char) : Char :=
  if 65 ≤ c.toNat && c.toNat ≤ 90 then Char.ofNat (c.toNat + 32) else c

def eqAsciiCI (a b : Char) : Bool :=
  lowerChar a == lowerChar b

/-- The capture groups of `REX_DCC_SEND`:
`(?i)\x01DCC SEND (?P<filename>\S+) (?P<address>\d+) (?P<port>\d+)(?: (?P<filesize>\d+))?(?: (?P<id>\d+))?.*\x01` -/
structure DccCaptures where
  filename : List Char
  address : List Char
  port : List Char
  filesize : Option (List Char)
  id : Option (List Char)
deriving DecidableEq

/-- The literal prefix `\x01DCC SEND ` of the regex. -/
def litChars : List Char :=
  '\x01' :: ('D' :: 'C' :: 'C' :: ' ' :: 'S' :: 'E' :: 'N' :: 'D' :: [' '])

/-- Match a literal (case-insensitively) as a prefix, returning the rest. -/
def matchLit : List Char → List Char → Option (List Char)
  | [], s => some s
  | _ :: _, [] => none
  | l :: ls, c :: cs => if eqAsciiCI l c then matchLit ls cs else none

/-- `.*\x01` of the regex: `.` matches anything but newline, so the match
succeeds exactly when a `\x01` occurs before the next newline. -/
def hasSohBeforeNl : List Char → Bool
  | [] => false
  | c :: rest =>
    if c == '\x01' then true else if c == '\n' then false else hasSohBeforeNl rest

/-- One optional group `(?: (?P<g>\d+))?`: a space followed by a maximal
nonempty digit run, or nothing.  (The group being greedy, it is taken
whenever it can match; doing so never changes whether `.*\x01` succeeds,
since the consumed characters are never `\x01` or a newline.) -/
def optField (s : List Char) : Option (List Char) × List Char :=
  match s with
  | ' ' :: rest =>
    let run := rest.takeWhile rexDigit
    if run = [] then (none, s) else (some run, rest.dropWhile rexDigit)
  | _ => (none, s)

/-- The body of the regex after the literal.  Each of `\S+`/`\d+` is
greedy and followed either by a literal space or by text it cannot
match, so the backtracking engine's match is the maximal run. -/
def matchBody (s : List Char) : Option DccCaptures :=
  let fn := s.takeWhile (fun c => !rexSpace c)
  let r1 := s.dropWhile (fun c => !rexSpace c)
  if fn = [] then none else
  match r1 with
  | ' ' :: r2 =>
    let addr := r2.takeWhile rexDigit
    let r3 := r2.dropWhile rexDigit
    if addr = [] then none else
    match r3 with
    | ' ' :: r4 =>
      let port := r4.takeWhile rexDigit
      let r5 := r4.dropWhile rexDigit
      if port = [] then none else
      let p1 := optField r5
      let p2 := optField p1.2
      if hasSohBeforeNl p2.2 then
        some ⟨fn, addr, port, p1.1, p2.1⟩
      else none
    | _ => none
  | _ => none

/-- Attempt the whole regex at the current position. -/
def matchAt (s : List Char) : Option DccCaptures :=
  match matchLit litChars s with
  | some rest => matchBody rest
  | none => none

/-- `REX_DCC_SEND.captures`: leftmost match — try each start position in
order (src/dcc.rs:13-16). -/
def findDccSend : List Char → Option DccCaptures
  | [] => none
  | c :: cs =>
    match matchAt (c :: cs) with
    | some cap => some cap
    | none => findDccSend cs

/-! ### Integer parsing (`str::parse::<uN>` on an all-digit capture) -/

def digitVal (c : Char) : Nat := c.toNat - 48

/-- Decimal value of an all-ASCII-digit, nonempty string; `none` otherwise
(mirrors that `parse` rejects empty or non-ASCII-digit input). -/
def parseDigits (s : List Char) : Option Nat :=
  if s ≠ [] ∧ s.all (fun c => c.isDigit) then
    some (s.foldl (fun a c => a * 10 + digitVal c) 0)
  else none

def U16 : Nat := 2 ^ 16
def U32 : Nat := 2 ^ 32
def U64 : Nat := 2 ^ 64

/-- `str::parse::<uN>`: value must also fit the integer width. -/
def parseBounded (bound : Nat) (s : List Char) : Option Nat :=
  (parseDigits s).bind (fun n => if n < bound then some n else none)

/-! ### `DccSend` (src/dcc.rs:23-71) -/

/-- `DccSend`: the parsed transfer offer.  `addr_ip` is the `u32` value
of the IPv4 address, `addr_port` the `u16` port (the Rust struct stores
them as one `SocketAddrV4`); the progress channel is modelled by the
event trace of `download` rather than stored in the struct. -/
structure DccSend where
  file_name : List Char
  addr_ip : Nat
  addr_port : Nat
  file_size : Option Nat
  id : Option Nat
deriving DecidableEq

/-- `DccSend::from_str` (src/dcc.rs:32-67): regex match, then `u32` parse
of the address and `u16` parse of the port (failure of either rejects the
offer), while a `filesize`/`id` capture that fails to parse as `usize`
is dropped to `None`. -/
def DccSend.from_str (msg : List Char) : Option DccSend :=
  match findDccSend msg with
  | none => none
  | some cap =>
    match parseBounded U32 cap.address, parseBounded U16 cap.port with
    | some ip, some port =>
      some { file_name := cap.filename
             addr_ip := ip
             addr_port := port
             file_size := cap.filesize.bind (parseBounded U64)
             id := cap.id.bind (parseBounded U64) }
    | _, _ => none

/-- `DccSend::is_passive` (src/dcc.rs:69-71). -/
def DccSend.is_passive (d : DccSend) : Bool :=
  d.addr_port == 0

/-- `Ipv4Addr::from(u32)` octets, network order. -/
def ipv4Octets (n : Nat) : List Nat :=
  [n / 2 ^ 24 % 256, n / 2 ^ 16 % 256, n / 2 ^ 8 % 256, n % 256]

/-- `usize::to_be_bytes` on a 64-bit target. -/
def toBeBytes8 (n : Nat) : List Nat :=
  [n / 2 ^ 56 % 256, n / 2 ^ 48 % 256, n / 2 ^ 40 % 256, n / 2 ^ 32 % 256,
   n / 2 ^ 24 % 256, n / 2 ^ 16 % 256, n / 2 ^ 8 % 256, n % 256]

/-- Decimal digits of a `Nat`, as `Display` for Rust integers. -/
def natChars (n : Nat) : List Char := (Nat.repr n).data

def optNatChars : Option Nat → List Char
  | some n => natChars n
  | none => []

/-! ### The transfer executor `DccSend::download` (src/dcc.rs:73-143)

The socket, filesystem and timer interactions are abstracted into a
`NetEnv` script; `download` returns the trace of observable events in
program order together with the outcome. -/

/-- Observable events of one `download` run, in program order. -/
inductive Ev where
  /-- `sender.send_privmsg(nick, msg)` succeeded. -/
  | sentMsg (nick msg : List Char)
  /-- `listener.accept()` returned a peer with this IPv4 address. -/
  | accepted (ip : Nat)
  /-- `stream.write_all(&...to_be_bytes())`: the protocol handshake. -/
  | wroteHandshake (bytes : List Nat)
  /-- `writer.write_all(&buf[0..n])`: payload appended to the file. -/
  | wroteFile (data : List Nat)
  /-- `progress_sender.send(DownloadProgress { transferred_bytes })`. -/
  | progressUpd (n : Nat)
deriving DecidableEq

/-- One result of `stream.try_read` (plus the success of the subsequent
file write for a data chunk).  `chunk [] _` is `Ok(0)`: orderly EOF.
A chunk models one read into the 16384-byte buffer, so a faithful script
has chunks of at most 16384 bytes of values below 256; none of the
properties proved below depend on that bound. -/
inductive ReadEvent where
  | chunk (data : List Nat) (writeOk : Bool)
  | wouldBlock
  | readErr
deriving DecidableEq

inductive Outcome where
  | ok
  | fail (reason : String)
  /-- A Rust panic (`unwrap` on `None`). -/
  | panicked
  /-- The read script ended while the transfer was still streaming. -/
  | incomplete
deriving DecidableEq

/-- Script of the fallible external interactions of one `download` call. -/
structure NetEnv where
  /-- Passive mode: `TcpListener::bind` + `local_addr` — the bound port,
  or `none` for an error. -/
  bindPort : Option Nat
  /-- Passive mode: result of `send_privmsg` for the reply offer. -/
  sendOk : Bool
  /-- Passive mode: ip of the peer accepted within the 30s timeout,
  `none` for timeout or accept error. -/
  acceptPeer : Option Nat
  /-- Active mode: `TcpStream::connect` within the 30s timeout. -/
  connectOk : Bool
  /-- `create_dir_all` + `File::create`. -/
  createOk : Bool
  /-- `write_all` of the handshake bytes to the peer. -/
  peerWriteOk : Bool
  /-- The `try_read` loop script. -/
  reads : List ReadEvent
  /-- The final `writer.flush()`. -/
  flushOk : Bool
deriving DecidableEq

def bindErrMsg : String := "bind error"
def sendErrMsg : String := "privmsg send error"
def acceptErrMsg : String := "accept timeout"
def ipMismatchMsg : String := "IP mismatch on connected client"
def connectErrMsg : String := "connect timeout"
def createErrMsg : String := "create file error"
def handshakeErrMsg : String := "handshake write error"
def fileWriteErrMsg : String := "file write error"
def readErrMsg : String := "read error"
def flushErrMsg : String := "flush error"

/-- The `loop { stream.readable(); ... try_read ... }` of src/dcc.rs:120-139,
carrying the running `transferred_bytes` total. -/
def streamLoop (flushOk : Bool) : List ReadEvent → Nat → List Ev × Outcome
  | [], _ => ([], .incomplete)
  | .chunk [] _ :: _, _ =>
    ([], if flushOk then .ok else .fail flushErrMsg)
  | .chunk (b :: bs) w :: rest, t =>
    if w then
      let t' := t + (b :: bs).length
      let r := streamLoop flushOk rest t'
      (.wroteFile (b :: bs) :: .progressUpd t' :: r.1, r.2)
    else ([], .fail fileWriteErrMsg)
  | .wouldBlock :: rest, t => streamLoop flushOk rest t
  | .readErr :: _, _ => ([], .fail readErrMsg)

/-- The passive-mode reply offer
`format!("\x01DCC SEND {} {} {} {} {}\x01", file_name, u32::from(myip), port, file_size_or_empty, id_or_empty)`
of src/dcc.rs:87-98. -/
def replyOffer (d : DccSend) (myip bp : Nat) : List Char :=
  '\x01' :: ('D' :: 'C' :: 'C' :: ' ' :: 'S' :: 'E' :: 'N' :: 'D' :: [' '])
    ++ d.file_name ++ ' ' :: natChars myip ++ ' ' :: natChars bp
    ++ ' ' :: optNatChars d.file_size ++ ' ' :: optNatChars d.id ++ ['\x01']

/-- src/dcc.rs:112-142 — the part after the stream is established:
create the destination file, write the handshake
`self.file_size.unwrap().to_be_bytes()` (a panic when `file_size` is
`None`), then stream chunks to the file, publishing each new total. -/
def afterConnect (d : DccSend) (env : NetEnv) (pre : List Ev) : List Ev × Outcome :=
  if env.createOk then
    match d.file_size with
    | none => (pre, .panicked)
    | some fs =>
      if env.peerWriteOk then
        let r := streamLoop env.flushOk env.reads 0
        (pre ++ .wroteHandshake (toBeBytes8 fs) :: r.1, r.2)
      else (pre, .fail handshakeErrMsg)
  else (pre, .fail createErrMsg)

/-- `DccSend::download` (src/dcc.rs:73-143).  Passive mode binds a
listener, sends the reply offer, accepts within the timeout and rejects
a peer whose IP differs from the offer's; active mode connects directly.
`_port` is the configured listening-port preference, whose observable
effect (the actually bound port) is `env.bindPort`. -/
def DccSend.download (d : DccSend) (nick : List Char) (myip : Nat)
    (_port : Nat) (env : NetEnv) : List Ev × Outcome :=
  if d.is_passive then
    match env.bindPort with
    | none => ([], .fail bindErrMsg)
    | some bp =>
      let msg := replyOffer d myip bp
      if env.sendOk then
        match env.acceptPeer with
        | none => ([.sentMsg nick msg], .fail acceptErrMsg)
        | some ip =>
          if ip == d.addr_ip then
            afterConnect d env [.sentMsg nick msg, .accepted ip]
          else
            ([.sentMsg nick msg, .accepted ip], .fail ipMismatchMsg)
      else ([], .fail sendErrMsg)
  else
    if env.connectOk then afterConnect d env []
    else ([], .fail connectErrMsg)

/-! ### Trace observations -/

def isSentMsgEv : Ev → Bool
  | .sentMsg _ _ => true
  | _ => false

def isHandshakeEv : Ev → Bool
  | .wroteHandshake _ => true
  | _ => false

/-- The cumulative byte counts published to the progress channel, in order. -/
def progressVals (evs : List Ev) : List Nat :=
  evs.filterMap fun e =>
    match e with
    | .progressUpd n => some n
    | _ => none

/-- All handshake writes in the trace, in order. -/
def handshakesOf (evs : List Ev) : List (List Nat) :=
  evs.filterMap fun e =>
    match e with
    | .wroteHandshake b => some b
    | _ => none

/-- All bytes written to the destination file, in order. -/
def fileBytesOf (evs : List Ev) : List Nat :=
  (evs.filterMap fun e =>
    match e with
    | .wroteFile d => some d
    | _ => none).flatten

/-- The environment lets `download` reach the handshake write: the stream
gets established (in the mode-appropriate way) and the destination file
gets created. -/
def StreamOk (d : DccSend) (env : NetEnv) : Prop :=
  (d.is_passive = true →
    env.bindPort.isSome = true ∧ env.sendOk = true
      ∧ env.acceptPeer = some d.addr_ip)
  ∧ (d.is_passive = false → env.connectOk = true)
  ∧ env.createOk = true ∧ env.peerWriteOk = true

instance (d : DccSend) (env : NetEnv) : Decidable (StreamOk d env) := by
  unfold StreamOk; infer_instance

/-! ### Download registry and state machine (src/main.rs, src/server.rs)

The per-server `DashMap<DownloadId, DownloadItem>` is modelled as a list
of entries in iteration order (keys — the `id` fields — are unique);
`Instant` is a number of seconds.  Nicks are byte strings (`List Nat`),
since the IRC case rule of src/main.rs:490-508 is defined on `[u8]`. -/

/-- `DownloadStatus` (src/main.rs:70-78).  `Progress` carries the fields
of `DownloadProgress` (src/main.rs:62-68), with the `AbortHandle`
modelled as an opaque numeric handle. -/
inductive DownloadStatus where
  | Requested
  | SenderAbsent
  | Delayed (retry_at : Nat)
  | Progress (transferred : Nat) (file_size : Option Nat) (abort_handle : Nat)
  | Failed (reason : String)
  | Connecting
deriving DecidableEq

/-- `DownloadItem` (src/main.rs:50-60). -/
structure DownloadItem where
  id : Nat
  server : String
  file_name : List Char
  nick : List Nat
  status : DownloadStatus
  request_command : List Char
deriving DecidableEq

/-- `ServerConnection` (src/server.rs:21-26), restricted to the fields
the claims touch (the client handle and channel list are external). -/
structure ServerConnection where
  downloads : List DownloadItem
  connected_at : Nat
deriving DecidableEq

def isRequested : DownloadStatus → Bool
  | .Requested => true
  | _ => false

def isConnecting : DownloadStatus → Bool
  | .Connecting => true
  | _ => false

/-- `ServerConnection::mark_downloads_delayed` (src/server.rs:61-69):
every `Requested` download becomes `Delayed(connected_at + 70s)`; the
deadline is returned. -/
def mark_downloads_delayed (c : ServerConnection) : ServerConnection × Nat :=
  let u := c.connected_at + 70
  ({ c with downloads := c.downloads.map fun d =>
      if isRequested d.status then { d with status := .Delayed u } else d }, u)

/-! #### IRC case-insensitive comparison (src/main.rs:490-522) -/

/-- `u8::to_ascii_lowercase`. -/
def asciiLowerByte (a : Nat) : Nat :=
  if 65 ≤ a ∧ a ≤ 90 then a + 32 else a

/-- One byte pair of `eq_ignore_irc_case`: ASCII-case-insensitive
equality or one of the bracket/backslash pairs
`{`≡`[` (123,91), `}`≡`]` (125,93), `\`≡`|` (92,124). -/
def ircByteEq (a b : Nat) : Bool :=
  asciiLowerByte a == asciiLowerByte b
    || (a == 123 && b == 91) || (a == 91 && b == 123)
    || (a == 125 && b == 93) || (a == 93 && b == 125)
    || (a == 92 && b == 124) || (a == 124 && b == 92)

/-- `<[u8] as IrcCase>::eq_ignore_irc_case` (src/main.rs:490-508). -/
def eq_ignore_irc_case (xs ys : List Nat) : Bool :=
  xs.length == ys.length
    && (List.zip xs ys).all fun p => ircByteEq p.1 p.2

/-- Byte string of an ASCII Lean string (codepoints; equals the UTF-8
bytes the Rust `str` impl compares, for ASCII input). -/
def strBytes (s : String) : List Nat :=
  s.data.map Char.toNat

/-- `ServerConnection::handle_sender_gone` (src/server.rs:71-77): every
download whose nick matches under the IRC case rule becomes
`SenderAbsent`. -/
def handle_sender_gone (c : ServerConnection) (nick : List Nat) : ServerConnection :=
  { c with downloads := c.downloads.map fun d =>
      if eq_ignore_irc_case d.nick nick then { d with status := .SenderAbsent } else d }

/-- `DashMap::remove` by key: drop the (unique) entry with this id,
returning it; `none` and the list unchanged when the key is absent. -/
def removeById : List DownloadItem → Nat → List DownloadItem × Option DownloadItem
  | [], _ => ([], none)
  | d :: rest, i =>
    if d.id = i then (rest, some d)
    else
      let r := removeById rest i
      (d :: r.1, r.2)

/-- The abort handles stored in a status: only `Progress` carries one. -/
def statusAbortHandles : DownloadStatus → List Nat
  | .Progress _ _ h => [h]
  | _ => []

/-- `ServerConnection::abort_download` (src/server.rs:79-93): remove the
entry; if the removed entry was in `Progress`, abort its handle.  The
second component lists the handles that got `abort()` called. -/
def abort_download (ds : List DownloadItem) (i : Nat) : List DownloadItem × List Nat :=
  match removeById ds i with
  | (rest, some d) => (rest, statusAbortHandles d.status)
  | (rest, none) => (rest, [])

/-- `DashMap::get_mut(id)` + status assignment; `none` models the panic
of `.expect("File name mismatch")` when the entry is gone. -/
def setFailedById : List DownloadItem → Nat → String → Option (List DownloadItem)
  | [], _, _ => none
  | d :: rest, i, r =>
    if d.id = i then some ({ d with status := .Failed r } :: rest)
    else (setFailedById rest i r).map fun l => d :: l

/-- How the executor task's result is applied to the registry
(src/main.rs:198-226): `Err(Aborted)` only logs, an inner `Err` marks the
entry `Failed`, an inner `Ok` removes it (`completed`, src/server.rs:95-97). -/
inductive ExecOutcome where
  | aborted
  | failedWith (reason : String)
  | success

def handle_exec_outcome (ds : List DownloadItem) (i : Nat) :
    ExecOutcome → Option (List DownloadItem)
  | .aborted => some ds
  | .failedWith r => setFailedById ds i r
  | .success => some (removeById ds i).1

/-- The resend loop of the 531 timer task (src/main.rs:303-316): iterate
the registry, sending each entry's `request_command` to its `nick`; a
send failure propagates via `?` and stops the loop (second component
`false`).  Returns the (nick, command) pairs actually sent. -/
def resendAll (ds : List DownloadItem) (sendOk : Nat → Bool) :
    List (List Nat × List Char) × Bool :=
  match ds with
  | [] => ([], true)
  | d :: rest =>
    if sendOk d.id then
      let r := resendAll rest sendOk
      ((d.nick, d.request_command) :: r.1, r.2)
    else ([], false)

/-- The action the offer-dispatch code takes (src/main.rs:170-194). -/
inductive OfferAction where
  /-- `.expect("Associated download not found...")`: no entry matches. -/
  | panicNoMatch
  /-- Entry already `Connecting`: logged and ignored, no new task. -/
  | ignoredConnecting
  /-- Entry found: status set to `Connecting`, executor spawned for it. -/
  | spawnExec (i : Nat)
deriving DecidableEq

/-- The inline offer-dispatch of `main` (src/main.rs:170-194): find the
first registry entry whose `file_name` equals the offer's; if it is
already `Connecting` do nothing, otherwise mark it `Connecting` and
spawn the executor. -/
def handle_offer : List DownloadItem → List Char → List DownloadItem × OfferAction
  | [], _ => ([], .panicNoMatch)
  | d :: rest, fname =>
    if d.file_name = fname then
      if isConnecting d.status then (d :: rest, .ignoredConnecting)
      else ({ d with status := .Connecting } :: rest, .spawnExec d.id)
    else
      let r := handle_offer rest fname
      (d :: r.1, r.2)

/-! ### Concrete inputs used by witnesses and counterexamples -/

/-- The offer string of the spec's example scenario, verbatim (it lacks
the `DCC` keyword of the wire marker). -/
def specOfferRaw : String := "\x01SEND report.mkv 1226420238 0 3498348389 22\x01"

/-- The example offer with the full `DCC SEND` marker (as in the
repository's own test, src/dcc.rs:150-172). -/
def fixedOfferRaw : String := "\x01DCC SEND report.mkv 1226420238 0 3498348389 22\x01"

/-- An offer whose filesize field is present but exceeds `usize`. -/
def bigFsRaw : String := "\x01DCC SEND f 1 2 99999999999999999999 7\x01"

def specOfferStr : List Char := specOfferRaw.data
def fixedOfferStr : List Char := fixedOfferRaw.data
def bigFsMsg : List Char := bigFsRaw.data

def reportNameRaw : String := "report.mkv"

/-- The offer `fixedOfferStr` parses to (checked by `C4_amended`). -/
def parsedOffer : DccSend :=
  { file_name := reportNameRaw.data
    addr_ip := 1226420238
    addr_port := 0
    file_size := some 3498348389
    id := some 22 }

/-- The captures of `bigFsMsg`. -/
def bigCap : DccCaptures :=
  { filename := [ 'f' ]
    address := [ '1' ]
    port := [ '2' ]
    filesize := some (List.replicate 20 '9')
    id := some [ '7' ] }

/-- What `bigFsMsg` parses to: the oversized filesize is dropped. -/
def bigSend : DccSend :=
  { file_name := [ 'f' ]
    addr_ip := 1
    addr_port := 2
    file_size := none
    id := some 7 }

def peerStr : String := "peer"
def peerNick : List Char := peerStr.data
def peerNickBytes : List Nat := strBytes peerStr

/-- An active-mode (nonzero port) offer with a declared size. -/
def cexSend : DccSend :=
  { file_name := reportNameRaw.data
    addr_ip := 1226420238
    addr_port := 2000
    file_size := some 3498348389
    id := some 22 }

/-- Like `cexSend` but with no declared file size. -/
def noSizeSend : DccSend :=
  { cexSend with file_size := none }

/-- `cexSend` as a passive-mode offer. -/
def passiveSend : DccSend :=
  { cexSend with addr_port := 0 }

/-- An environment where everything succeeds and the peer closes the
stream immediately (one `Ok(0)` read). -/
def cexEnv : NetEnv :=
  { bindPort := some 5555
    sendOk := true
    acceptPeer := some 1226420238
    connectOk := true
    createOk := true
    peerWriteOk := true
    reads := [ .chunk [] true ]
    flushOk := true }

/-- `cexEnv` but the accepted peer has a different IP than the offer. -/
def badIpEnv : NetEnv :=
  { cexEnv with acceptPeer := some 99 }

/-- `cexEnv` with a three-byte payload delivered in two chunks. -/
def progressEnv : NetEnv :=
  { cexEnv with reads :=
      [ .chunk [5, 6] true, .wouldBlock, .chunk [7] true, .chunk [] true ] }

def netRaw : String := "net"
def aBinRaw : String := "a.bin"
def bBinRaw : String := "b.bin"
def cmd1Raw : String := "xdcc send #1"
def cmd2Raw : String := "xdcc send #2"
def nickFooBrRaw : String := "Foo\x7bbar\x7d"
def nickFooSqRaw : String := "foo[bar]"

/-- A `Connecting` download (registry entry). -/
def connItem : DownloadItem :=
  { id := 5
    server := netRaw
    file_name := aBinRaw.data
    nick := peerNickBytes
    status := .Connecting
    request_command := cmd1Raw.data }

/-- A `Requested` download. -/
def reqItemA : DownloadItem :=
  { id := 6
    server := netRaw
    file_name := aBinRaw.data
    nick := peerNickBytes
    status := .Requested
    request_command := cmd1Raw.data }

/-- A second `Requested` download with a different file name. -/
def reqItemB : DownloadItem :=
  { id := 7
    server := netRaw
    file_name := bBinRaw.data
    nick := strBytes nickFooBrRaw
    status := .Requested
    request_command := cmd2Raw.data }

/-- A download in `Progress` holding abort handle 42. -/
def progItem : DownloadItem :=
  { id := 8
    server := netRaw
    file_name := aBinRaw.data
    nick := peerNickBytes
    status := .Progress 100 (some 3498348389) 42
    request_command := cmd1Raw.data }

/-- A sample connection for the throttle and sender-gone claims. -/
def sampleConn : ServerConnection :=
  { downloads := [ connItem, reqItemA, reqItemB ]
    connected_at := 1000 }

/-- A send function that always succeeds. -/
def alwaysOk : Nat → Bool := fun _ => true

/-- The events of the trace strictly before the handshake write. -/
def writesBeforeHandshake (evs : List Ev) : List Ev :=
  evs.takeWhile fun e => !isHandshakeEv e

/-! ## Helper lemmas -/

theorem streamLoop_no_handshake (fo : Bool) (rs : List ReadEvent) (t : Nat) :
    handshakesOf (streamLoop fo rs t).1 = [] := by
  induction rs generalizing t with
  | nil => rfl
  | cons r rest ih =>
    cases r with
    | chunk data w =>
      cases data with
      | nil => rfl
      | cons b bs =>
        cases w
        · rfl
        · simpa [streamLoop, handshakesOf] using ih (t + (b :: bs).length)
    | wouldBlock => simpa [streamLoop] using ih t
    | readErr => rfl

theorem streamLoop_no_sent (fo : Bool) (rs : List ReadEvent) (t : Nat) :
    (streamLoop fo rs t).1.countP isSentMsgEv = 0 := by
  induction rs generalizing t with
  | nil => rfl
  | cons r rest ih =>
    cases r with
    | chunk data w =>
      cases data with
      | nil => rfl
      | cons b bs =>
        cases w
        · rfl
        · simpa [streamLoop, List.countP_cons, isSentMsgEv] using ih (t + (b :: bs).length)
    | wouldBlock => simpa [streamLoop] using ih t
    | readErr => rfl

theorem streamLoop_chunk_true (fo : Bool) (b : Nat) (bs : List Nat)
    (rest : List ReadEvent) (t : Nat) :
    streamLoop fo (.chunk (b :: bs) true :: rest) t
      = (.wroteFile (b :: bs) ::
          .progressUpd (t + (b :: bs).length) ::
            (streamLoop fo rest (t + (b :: bs).length)).1,
         (streamLoop fo rest (t + (b :: bs).length)).2) := by
  simp [streamLoop]

theorem streamLoop_progress (fo : Bool) (rs : List ReadEvent) (t : Nat) :
    (∀ x ∈ progressVals (streamLoop fo rs t).1, t ≤ x)
  ∧ List.Pairwise (· ≤ ·) (progressVals (streamLoop fo rs t).1)
  ∧ ((streamLoop fo rs t).2 = .ok →
      (progressVals (streamLoop fo rs t).1).getLastD t
        = t + (fileBytesOf (streamLoop fo rs t).1).length) := by
  induction rs generalizing t with
  | nil =>
    refine ⟨by simp [streamLoop, progressVals], by simp [streamLoop, progressVals], ?_⟩
    intro h
    exact absurd h (by simp [streamLoop])
  | cons r rest ih =>
    cases r with
    | chunk data w =>
      cases data with
      | nil =>
        refine ⟨by simp [streamLoop, progressVals], by simp [streamLoop, progressVals], ?_⟩
        intro _
        simp [streamLoop, progressVals, fileBytesOf]
      | cons b bs =>
        cases w
        · refine ⟨by simp [streamLoop, progressVals], by simp [streamLoop, progressVals], ?_⟩
          intro h
          exact absurd h (by simp [streamLoop])
        · obtain ⟨ihMem, ihPw, ihLast⟩ := ih (t + (b :: bs).length)
          rw [streamLoop_chunk_true]
          simp only [progressVals, fileBytesOf, List.filterMap_cons] at ihMem ihPw ihLast ⊢
          refine ⟨?_, ?_, ?_⟩
          · intro x hx
            rcases List.mem_cons.mp hx with h | h
            · omega
            · have := ihMem x h
              omega
          · refine List.Pairwise.cons ?_ ihPw
            intro x hx
            have := ihMem x hx
            omega
          · intro hok
            have hlast := ihLast hok
            simp only [List.getLastD_cons, List.flatten_cons, List.length_append] at *
            omega
    | wouldBlock =>
      simpa [streamLoop] using ih t
    | readErr =>
      refine ⟨by simp [streamLoop, progressVals], by simp [streamLoop, progressVals], ?_⟩
      intro h
      exact absurd h (by simp [streamLoop])

theorem afterConnect_good (d : DccSend) (env : NetEnv) (pre : List Ev) (fs : Nat)
    (hfs : d.file_size = some fs) (hcr : env.createOk = true) (hw : env.peerWriteOk = true) :
    afterConnect d env pre
      = (pre ++ .wroteHandshake (toBeBytes8 fs) :: (streamLoop env.flushOk env.reads 0).1,
         (streamLoop env.flushOk env.reads 0).2) := by
  simp [afterConnect, hcr, hfs, hw]

theorem afterConnect_noSize (d : DccSend) (env : NetEnv) (pre : List Ev)
    (hfs : d.file_size = none) (hcr : env.createOk = true) :
    afterConnect d env pre = (pre, .panicked) := by
  simp [afterConnect, hcr, hfs]

theorem download_active (d : DccSend) (nick : List Char) (myip p : Nat) (env : NetEnv)
    (hp : d.is_passive = false) (hc : env.connectOk = true) :
    d.download nick myip p env = afterConnect d env [] := by
  simp [DccSend.download, hp, hc]

theorem download_active_connFail (d : DccSend) (nick : List Char) (myip p : Nat)
    (env : NetEnv) (hp : d.is_passive = false) (hc : env.connectOk = false) :
    d.download nick myip p env = ([], .fail connectErrMsg) := by
  simp [DccSend.download, hp, hc]

theorem download_passive_bindFail (d : DccSend) (nick : List Char) (myip p : Nat)
    (env : NetEnv) (hp : d.is_passive = true) (hb : env.bindPort = none) :
    d.download nick myip p env = ([], .fail bindErrMsg) := by
  simp [DccSend.download, hp, hb]

theorem download_passive_sendFail (d : DccSend) (nick : List Char) (myip p bp : Nat)
    (env : NetEnv) (hp : d.is_passive = true) (hb : env.bindPort = some bp)
    (hs : env.sendOk = false) :
    d.download nick myip p env = ([], .fail sendErrMsg) := by
  simp [DccSend.download, hp, hb, hs]

theorem download_passive_acceptFail (d : DccSend) (nick : List Char) (myip p bp : Nat)
    (env : NetEnv) (hp : d.is_passive = true) (hb : env.bindPort = some bp)
    (hs : env.sendOk = true) (ha : env.acceptPeer = none) :
    d.download nick myip p env
      = ([.sentMsg nick (replyOffer d myip bp)], .fail acceptErrMsg) := by
  simp [DccSend.download, hp, hb, hs, ha]

theorem download_passive_ipMismatch (d : DccSend) (nick : List Char) (myip p bp ip : Nat)
    (env : NetEnv) (hp : d.is_passive = true) (hb : env.bindPort = some bp)
    (hs : env.sendOk = true) (ha : env.acceptPeer = some ip) (hne : ip ≠ d.addr_ip) :
    d.download nick myip p env
      = ([.sentMsg nick (replyOffer d myip bp), .accepted ip], .fail ipMismatchMsg) := by
  simp [DccSend.download, hp, hb, hs, ha, hne]

theorem download_passive_accept (d : DccSend) (nick : List Char) (myip p bp : Nat)
    (env : NetEnv) (hp : d.is_passive = true) (hb : env.bindPort = some bp)
    (hs : env.sendOk = true) (ha : env.acceptPeer = some d.addr_ip) :
    d.download nick myip p env
      = afterConnect d env
          [.sentMsg nick (replyOffer d myip bp), .accepted d.addr_ip] := by
  simp [DccSend.download, hp, hb, hs, ha]

theorem writesBeforeHandshake_append (pre : List Ev) (b : List Nat) (rest : List Ev)
    (h : ∀ e ∈ pre, isHandshakeEv e = false) :
    writesBeforeHandshake (pre ++ .wroteHandshake b :: rest) = pre := by
  induction pre with
  | nil => simp [writesBeforeHandshake, isHandshakeEv]
  | cons e pre ih =>
    have he := h e (List.mem_cons_self e pre)
    have ih' := ih (fun x hx => h x (List.mem_cons_of_mem e hx))
    simp only [writesBeforeHandshake, List.cons_append, List.takeWhile_cons, he] at ih' ⊢
    simp [he, ih']

theorem progressVals_append_handshake (pre : List Ev) (b : List Nat) (l : List Ev)
    (h : progressVals pre = []) :
    progressVals (pre ++ .wroteHandshake b :: l) = progressVals l := by
  simp only [progressVals] at h ⊢
  simp [List.filterMap_append, h]

theorem fileBytesOf_append_handshake (pre : List Ev) (b : List Nat) (l : List Ev)
    (h : fileBytesOf pre = []) :
    fileBytesOf (pre ++ .wroteHandshake b :: l) = fileBytesOf l := by
  simp only [fileBytesOf] at h ⊢
  simp [List.filterMap_append, List.flatten_append, h]

theorem afterConnect_tail (d : DccSend) (env : NetEnv) (pre : List Ev) :
    ∃ tail, (afterConnect d env pre).1 = pre ++ tail
      ∧ tail.countP isSentMsgEv = 0 := by
  unfold afterConnect
  cases hcr : env.createOk
  · exact ⟨[], by simp⟩
  · cases hfs : d.file_size with
    | none => exact ⟨[], by simp⟩
    | some fs =>
      cases hw : env.peerWriteOk
      · exact ⟨[], by simp⟩
      · refine ⟨.wroteHandshake (toBeBytes8 fs) :: (streamLoop env.flushOk env.reads 0).1,
          by simp, ?_⟩
        simp [List.countP_cons, isSentMsgEv, streamLoop_no_sent]

theorem afterConnect_progressSpec (d : DccSend) (env : NetEnv) (pre : List Ev)
    (h1 : progressVals pre = []) (h2 : fileBytesOf pre = []) :
    List.Pairwise (· ≤ ·) (progressVals (afterConnect d env pre).1)
  ∧ ((afterConnect d env pre).2 = .ok →
      (progressVals (afterConnect d env pre).1).getLastD 0
        = (fileBytesOf (afterConnect d env pre).1).length) := by
  unfold afterConnect
  cases hcr : env.createOk
  · refine ⟨by simp [h1], ?_⟩
    intro h
    exact absurd h (by simp)
  · cases hfs : d.file_size with
    | none =>
      refine ⟨by simp [h1], ?_⟩
      intro h
      exact absurd h (by simp)
    | some fs =>
      cases hw : env.peerWriteOk
      · refine ⟨by simp [h1], ?_⟩
        intro h
        exact absurd h (by simp)
      · obtain ⟨_, hpw, hlast⟩ := streamLoop_progress env.flushOk env.reads 0
        constructor
        · simpa [progressVals_append_handshake _ _ _ h1] using hpw
        · intro hok
          simp only at hok
          have h3 := hlast hok
          simp [progressVals_append_handshake _ _ _ h1,
            fileBytesOf_append_handshake _ _ _ h2] at h3 ⊢
          omega

/-! ## Claim theorems -/

/-- C1, counterexample: on an established stream the executor does not
write an all-zero 8-byte acknowledgment — for the example offer
(declared size 3498348389) the bytes written are the big-endian encoding
of that size, which differs from the encoding of 0
(`stream.write_all(&self.file_size.unwrap().to_be_bytes())`,
src/dcc.rs:117-119). -/
theorem C1_cex :
    handshakesOf (cexSend.download peerNick 42 0 cexEnv).1
      = [[0, 0, 0, 0, 208, 132, 143, 101]]
  ∧ [0, 0, 0, 0, 208, 132, 143, 101] ≠ toBeBytes8 0 := by
  decide

/-- C1 (amended): for every established transfer stream (active or
passive), the executor writes to the peer exactly one 8-byte big-endian
integer before reading any payload — but its value is the offer's
declared file size, not 0 (and the write panics instead when no size was
declared, see C2). -/
theorem C1_amended (d : DccSend) (nick : List Char) (myip p : Nat) (env : NetEnv)
    (fs : Nat) (hfs : d.file_size = some fs) (h : StreamOk d env) :
    handshakesOf (d.download nick myip p env).1 = [toBeBytes8 fs]
  ∧ progressVals (writesBeforeHandshake (d.download nick myip p env).1) = []
  ∧ fileBytesOf (writesBeforeHandshake (d.download nick myip p env).1) = [] := by
  obtain ⟨hpass, hact, hcr, hw⟩ := h
  have hloopH := streamLoop_no_handshake env.flushOk env.reads 0
  have hsplit : ∃ pre, (d.download nick myip p env).1
        = pre ++ .wroteHandshake (toBeBytes8 fs) :: (streamLoop env.flushOk env.reads 0).1
      ∧ (∀ e ∈ pre, isHandshakeEv e = false)
      ∧ handshakesOf pre = []
      ∧ progressVals pre = [] ∧ fileBytesOf pre = [] := by
    cases hp : d.is_passive with
    | true =>
      obtain ⟨hbs, hs, ha⟩ := hpass hp
      obtain ⟨bp, hb⟩ := Option.isSome_iff_exists.mp hbs
      refine ⟨[.sentMsg nick (replyOffer d myip bp), .accepted d.addr_ip], ?_, ?_, ?_, ?_, ?_⟩
      · rw [download_passive_accept d nick myip p bp env hp hb hs ha,
            afterConnect_good d env _ fs hfs hcr hw]
      · simp [isHandshakeEv]
      · simp [handshakesOf]
      · simp [progressVals]
      · simp [fileBytesOf]
    | false =>
      refine ⟨[], ?_, by simp, by simp [handshakesOf], by simp [progressVals],
        by simp [fileBytesOf]⟩
      rw [download_active d nick myip p env hp (hact hp),
          afterConnect_good d env _ fs hfs hcr hw]
  obtain ⟨pre, heq, hmem, hHs, hpreP, hpreF⟩ := hsplit
  have hbh := writesBeforeHandshake_append pre (toBeBytes8 fs)
    ((streamLoop env.flushOk env.reads 0).1) hmem
  refine ⟨?_, ?_, ?_⟩
  · rw [heq]
    simp only [handshakesOf, List.filterMap_append] at hHs hloopH ⊢
    simp [hHs, hloopH]
  · rw [heq, hbh]
    exact hpreP
  · rw [heq, hbh]
    exact hpreF

/-- C1, witness for the amended theorem at a concrete passive offer. -/
theorem C1_witness :
    handshakesOf (passiveSend.download peerNick 42 0 cexEnv).1
      = [toBeBytes8 3498348389]
  ∧ progressVals (writesBeforeHandshake (passiveSend.download peerNick 42 0 cexEnv).1) = []
  ∧ fileBytesOf (writesBeforeHandshake (passiveSend.download peerNick 42 0 cexEnv).1) = [] := by
  exact C1_amended passiveSend peerNick 42 0 cexEnv 3498348389 (by decide) (by decide)

/-- C2: when the offer declares no file size, an established transfer
panics at the handshake write (`self.file_size.unwrap()`,
src/dcc.rs:117-119), in both passive and active mode — `download` is
total only under the precondition that a size was declared. -/
theorem C2_panics (d : DccSend) (nick : List Char) (myip p : Nat) (env : NetEnv)
    (hfs : d.file_size = none) (h : StreamOk d env) :
    (d.download nick myip p env).2 = .panicked := by
  obtain ⟨hpass, hact, hcr, hw⟩ := h
  cases hp : d.is_passive with
  | true =>
    obtain ⟨hbs, hs, ha⟩ := hpass hp
    obtain ⟨bp, hb⟩ := Option.isSome_iff_exists.mp hbs
    rw [download_passive_accept d nick myip p bp env hp hb hs ha,
        afterConnect_noSize d env _ hfs hcr]
  | false =>
    rw [download_active d nick myip p env hp (hact hp),
        afterConnect_noSize d env _ hfs hcr]

/-- C2, witness at a concrete sizeless offer. -/
theorem C2_witness :
    (noSizeSend.download peerNick 42 0 cexEnv).2 = .panicked := by
  exact C2_panics noSizeSend peerNick 42 0 cexEnv (by decide) (by decide)

/-- C5: for a passive-mode offer whose listener binds and whose reply
offer is sent, the very first trace event — in particular before any
connection is accepted — is the single reply offer (it echoes the
declared file size and id inside `replyOffer`), no other message is ever
sent, and an accepted peer whose IP differs from the offer's fails the
transfer with the IP-mismatch error (src/dcc.rs:82-106). -/
theorem C5_passive (d : DccSend) (nick : List Char) (myip p bp : Nat) (env : NetEnv)
    (hp : d.is_passive = true) (hb : env.bindPort = some bp) (hs : env.sendOk = true) :
    ((d.download nick myip p env).1.take 1 = [.sentMsg nick (replyOffer d myip bp)]
      ∧ (d.download nick myip p env).1.countP isSentMsgEv = 1)
  ∧ (∀ ip, env.acceptPeer = some ip → ip ≠ d.addr_ip →
      (d.download nick myip p env).2 = .fail ipMismatchMsg) := by
  constructor
  · cases ha : env.acceptPeer with
    | none =>
      rw [download_passive_acceptFail d nick myip p bp env hp hb hs ha]
      simp [List.countP_cons, isSentMsgEv]
    | some ip =>
      by_cases hip : ip = d.addr_ip
      · subst hip
        rw [download_passive_accept d nick myip p bp env hp hb hs ha]
        obtain ⟨tail, htail, hcount⟩ := afterConnect_tail d env
          [.sentMsg nick (replyOffer d myip bp), .accepted d.addr_ip]
        rw [htail]
        constructor
        · simp
        · simp [List.countP_append, List.countP_cons, isSentMsgEv, hcount]
      · rw [download_passive_ipMismatch d nick myip p bp ip env hp hb hs ha hip]
        simp [List.countP_cons, isSentMsgEv]
  · intro ip hip hne
    rw [download_passive_ipMismatch d nick myip p bp ip env hp hb hs hip hne]

/-- C5, witness: a concrete passive offer whose accepted peer has the
wrong IP fails with the mismatch error. -/
theorem C5_witness :
    (passiveSend.download peerNick 42 0 badIpEnv).2 = .fail ipMismatchMsg := by
  exact (C5_passive passiveSend peerNick 42 0 5555 badIpEnv (by decide) (by decide)
    (by decide)).2 99 (by decide) (by decide)

/-- C10: for every transfer run, the cumulative byte counts published to
the progress channel are monotonically non-decreasing, and if the run
succeeds the last published count equals the number of bytes written to
the destination file (src/dcc.rs:120-142). -/
theorem C10_progress (d : DccSend) (nick : List Char) (myip p : Nat) (env : NetEnv) :
    List.Pairwise (· ≤ ·) (progressVals (d.download nick myip p env).1)
  ∧ ((d.download nick myip p env).2 = .ok →
      (progressVals (d.download nick myip p env).1).getLastD 0
        = (fileBytesOf (d.download nick myip p env).1).length) := by
  cases hp : d.is_passive with
  | false =>
    cases hc : env.connectOk
    · rw [download_active_connFail d nick myip p env hp hc]
      refine ⟨by simp [progressVals], ?_⟩
      intro h
      exact absurd h (by simp)
    · rw [download_active d nick myip p env hp hc]
      exact afterConnect_progressSpec d env [] (by simp [progressVals]) (by simp [fileBytesOf])
  | true =>
    cases hb : env.bindPort with
    | none =>
      rw [download_passive_bindFail d nick myip p env hp hb]
      refine ⟨by simp [progressVals], ?_⟩
      intro h
      exact absurd h (by simp)
    | some bp =>
      cases hs : env.sendOk
      · rw [download_passive_sendFail d nick myip p bp env hp hb hs]
        refine ⟨by simp [progressVals], ?_⟩
        intro h
        exact absurd h (by simp)
      · cases ha : env.acceptPeer with
        | none =>
          rw [download_passive_acceptFail d nick myip p bp env hp hb hs ha]
          refine ⟨by simp [progressVals], ?_⟩
          intro h
          exact absurd h (by simp)
        | some ip =>
          by_cases hip : ip = d.addr_ip
          · subst hip
            rw [download_passive_accept d nick myip p bp env hp hb hs ha]
            exact afterConnect_progressSpec d env _ (by simp [progressVals])
              (by simp [fileBytesOf])
          · rw [download_passive_ipMismatch d nick myip p bp ip env hp hb hs ha hip]
            refine ⟨by simp [progressVals], ?_⟩
            intro h
            exact absurd h (by simp)

/-- C10, witness: a concrete successful two-chunk transfer, whose last
published count equals the three bytes written. -/
theorem C10_witness :
    (progressVals (cexSend.download peerNick 42 0 progressEnv).1).getLastD 0
      = (fileBytesOf (cexSend.download peerNick 42 0 progressEnv).1).length := by
  exact (C10_progress cexSend peerNick 42 0 progressEnv).2 (by decide)

/-- C3: `from_str` returns `Some` exactly when the message contains the
(case-insensitive) `DCC SEND` marker with filename, address and port
present and the address fits `u32` and the port fits `u16`; a filesize or
id capture that fails to parse as `usize` is dropped to `None` instead of
rejecting the offer.  (The embedding is a pure function, reflecting that
the Rust parser touches no shared state — it only allocates a fresh
progress channel.) -/
theorem C3_offer_iff (msg : List Char) :
    ((DccSend.from_str msg).isSome = true ↔
      ∃ cap, findDccSend msg = some cap
        ∧ (parseBounded U32 cap.address).isSome = true
        ∧ (parseBounded U16 cap.port).isSome = true)
  ∧ (∀ cap s, findDccSend msg = some cap → DccSend.from_str msg = some s →
      s.file_name = cap.filename
      ∧ s.file_size = cap.filesize.bind (parseBounded U64)
      ∧ s.id = cap.id.bind (parseBounded U64)) := by
  cases h : findDccSend msg with
  | none =>
    refine ⟨?_, ?_⟩
    · constructor
      · intro hsome
        simp [DccSend.from_str, h] at hsome
      · rintro ⟨cap, hc, -, -⟩
        simp at hc
    · intro cap s hc hs
      simp at hc
  | some cap =>
    cases ha : parseBounded U32 cap.address with
    | none =>
      refine ⟨?_, ?_⟩
      · constructor
        · intro hsome
          simp [DccSend.from_str, h, ha] at hsome
        · rintro ⟨cap', hc', ha', -⟩
          injection hc' with hc'
          subst hc'
          rw [ha] at ha'
          simp at ha'
      · intro cap' s hc' hs
        simp [DccSend.from_str, h, ha] at hs
    | some ip =>
      cases hb : parseBounded U16 cap.port with
      | none =>
        refine ⟨?_, ?_⟩
        · constructor
          · intro hsome
            simp [DccSend.from_str, h, ha, hb] at hsome
          · rintro ⟨cap', hc', -, hb'⟩
            injection hc' with hc'
            subst hc'
            rw [hb] at hb'
            simp at hb'
        · intro cap' s hc' hs
          simp [DccSend.from_str, h, ha, hb] at hs
      | some pt =>
        refine ⟨?_, ?_⟩
        · constructor
          · intro _
            exact ⟨cap, rfl, by rw [ha]; rfl, by rw [hb]; rfl⟩
          · intro _
            simp [DccSend.from_str, h, ha, hb]
        · intro cap' s hc' hs
          injection hc' with hc'
          subst hc'
          simp only [DccSend.from_str, h, ha, hb] at hs
          injection hs with hs
          subst hs
          exact ⟨rfl, rfl, rfl⟩

/-- C3, witness: the offer `bigFsMsg` carries a 20-digit filesize (too
large for `usize`) and id 7; the parse succeeds with the filesize
dropped to `None`. -/
theorem C3_witness :
    bigSend.file_name = bigCap.filename
  ∧ bigSend.file_size = bigCap.filesize.bind (parseBounded U64)
  ∧ bigSend.id = bigCap.id.bind (parseBounded U64) := by
  exact (C3_offer_iff bigFsMsg).2 bigCap bigSend (by decide) (by decide)

/-- C4, counterexample: the spec's example string, taken verbatim, lacks
the `DCC` keyword of the marker (`\x01SEND ...` instead of
`\x01DCC SEND ...`), so the parser rejects it. -/
theorem C4_cex : DccSend.from_str specOfferStr = none := by
  decide

/-- C4 (amended): with the full `DCC SEND` marker the example offer
parses to filename `report.mkv`, address `73.25.176.14` (packed
1226420238), port 0 — classified passive — size 3498348389, id 22. -/
theorem C4_amended :
    DccSend.from_str fixedOfferStr = some parsedOffer
  ∧ parsedOffer.file_name = reportNameRaw.data
  ∧ ipv4Octets parsedOffer.addr_ip = [73, 25, 176, 14]
  ∧ parsedOffer.addr_port = 0
  ∧ parsedOffer.is_passive = true
  ∧ parsedOffer.file_size = some 3498348389
  ∧ parsedOffer.id = some 22 := by
  decide

theorem resendAll_ok : ∀ (ds : List DownloadItem) (sendOk : Nat → Bool),
    (∀ d ∈ ds, sendOk d.id = true) →
    resendAll ds sendOk = (ds.map (fun d => (d.nick, d.request_command)), true)
  | [], _, _ => rfl
  | d :: rest, sendOk, hs => by
    have hd := hs d (List.mem_cons_self d rest)
    have hr := resendAll_ok rest sendOk (fun x hx => hs x (List.mem_cons_of_mem d hx))
    simp [resendAll, hd, hr]

/-- C6: on the 531 throttle signal every `Requested` download of the
connection becomes `Delayed(connected_at + 70s)` while downloads in any
other status are untouched (src/server.rs:61-69), and when the timer
fires, the resend loop sends each registry entry's original
`request_command` verbatim to its nick (src/main.rs:296-317; `later` is
the registry contents at firing time, `sendOk` the per-entry send
results). -/
theorem C6_throttle (c : ServerConnection) (later : List DownloadItem)
    (sendOk : Nat → Bool) (hs : ∀ d ∈ later, sendOk d.id = true) :
    (mark_downloads_delayed c).2 = c.connected_at + 70
  ∧ (∀ i : Nat, (mark_downloads_delayed c).1.downloads[i]?
      = (c.downloads[i]?).map (fun d =>
          if isRequested d.status
          then { d with status := .Delayed (c.connected_at + 70) } else d))
  ∧ resendAll later sendOk
      = (later.map (fun d => (d.nick, d.request_command)), true) := by
  refine ⟨rfl, ?_, resendAll_ok later sendOk hs⟩
  intro i
  simp [mark_downloads_delayed, List.getElem?_map]

/-- C6, witness: marking the sample connection delays exactly its
`Requested` entries to 1070 = 1000 + 70, and the resend loop replays
both remaining commands. -/
theorem C6_witness :
    resendAll [ reqItemA, reqItemB ] alwaysOk
      = ([ (reqItemA.nick, reqItemA.request_command),
           (reqItemB.nick, reqItemB.request_command) ], true) := by
  exact (C6_throttle sampleConn [ reqItemA, reqItemB ] alwaysOk (by decide)).2.2

/-- C7: a "no such nick" event for nick `X` sets `SenderAbsent` on every
download whose nick matches `X` under the IRC rule — ASCII
case-insensitive with `{`≡`[`, `}`≡`]`, `\`≡`|` — and leaves every other
download unchanged (src/server.rs:71-77, src/main.rs:286-294,490-508);
in particular `Foo{bar}` matches `foo[bar]`. -/
theorem C7_sender_gone (c : ServerConnection) (nick : List Nat) :
    (∀ i : Nat, (handle_sender_gone c nick).downloads[i]?
      = (c.downloads[i]?).map (fun d =>
          if eq_ignore_irc_case d.nick nick
          then { d with status := .SenderAbsent } else d))
  ∧ eq_ignore_irc_case (strBytes nickFooBrRaw) (strBytes nickFooSqRaw) = true := by
  refine ⟨?_, by decide⟩
  intro i
  simp [handle_sender_gone, List.getElem?_map]

theorem handle_offer_skip : ∀ (pre rest : List DownloadItem) (fname : List Char),
    (∀ e ∈ pre, e.file_name ≠ fname) →
    handle_offer (pre ++ rest) fname
      = (pre ++ (handle_offer rest fname).1, (handle_offer rest fname).2)
  | [], rest, fname, _ => by simp
  | e :: pre, rest, fname, hpre => by
    have he := hpre e (List.mem_cons_self e pre)
    have ih := handle_offer_skip pre rest fname
      (fun x hx => hpre x (List.mem_cons_of_mem e hx))
    simp [handle_offer, he, ih]

/-- C8: an offer is dispatched to the first registry entry with the
offer's file name; if that entry is already `Connecting` the offer is
ignored (same registry, no executor spawned, no error), otherwise
exactly that entry moves to `Connecting` and its executor is spawned,
with every other entry — in particular a concurrently `Requested`
download with a different file name — left unchanged
(src/main.rs:166-194). -/
theorem C8_offer_once (pre : List DownloadItem) (d : DownloadItem)
    (post : List DownloadItem) (fname : List Char)
    (hpre : ∀ e ∈ pre, e.file_name ≠ fname) (hd : d.file_name = fname) :
    (isConnecting d.status = true →
      handle_offer (pre ++ d :: post) fname = (pre ++ d :: post, .ignoredConnecting))
  ∧ (isConnecting d.status = false →
      handle_offer (pre ++ d :: post) fname
        = (pre ++ { d with status := .Connecting } :: post, .spawnExec d.id)) := by
  have hskip := handle_offer_skip pre (d :: post) fname hpre
  constructor <;> intro hc <;> rw [hskip] <;> simp [handle_offer, hd, hc]

/-- C8, witness: of the two `Requested` entries only the one whose file
name matches the offer moves to `Connecting`; an offer for an entry
already `Connecting` is ignored. -/
theorem C8_witness :
    handle_offer [ reqItemA, reqItemB ] bBinRaw.data
      = ([ reqItemA, { reqItemB with status := .Connecting } ], .spawnExec 7)
  ∧ handle_offer [ connItem ] aBinRaw.data = ([ connItem ], .ignoredConnecting) := by
  constructor
  · exact (C8_offer_once [ reqItemA ] reqItemB [] bBinRaw.data
      (by decide) (by decide)).2 (by decide)
  · exact (C8_offer_once [] connItem [] aBinRaw.data
      (by decide) (by decide)).1 (by decide)

theorem removeById_absent : ∀ (ds : List DownloadItem) (i : Nat),
    (∀ e ∈ ds, e.id ≠ i) → removeById ds i = (ds, none)
  | [], _, _ => rfl
  | d :: rest, i, h => by
    have hd := h d (List.mem_cons_self d rest)
    have ih := removeById_absent rest i (fun x hx => h x (List.mem_cons_of_mem d hx))
    simp [removeById, hd, ih]

theorem removeById_found : ∀ (pre : List DownloadItem) (d : DownloadItem)
    (post : List DownloadItem) (i : Nat),
    (∀ e ∈ pre, e.id ≠ i) → d.id = i →
    removeById (pre ++ d :: post) i = (pre ++ post, some d)
  | [], d, post, i, _, hd => by simp [removeById, hd]
  | e :: pre, d, post, i, h, hd => by
    have he := h e (List.mem_cons_self e pre)
    have ih := removeById_found pre d post i
      (fun x hx => h x (List.mem_cons_of_mem e hx)) hd
    simp [removeById, he, ih]

/-- C9, counterexample: aborting the (unique) download while it is
`Connecting` removes the entry but signals no cancellation at all —
`abort()` is only called on the handle stored inside a `Progress`
status, and a `Connecting` status stores none (src/server.rs:79-93). -/
theorem C9_cex :
    abort_download [ connItem ] 5 = ([], [])
  ∧ connItem.status = .Connecting := by
  decide

/-- C9 (amended): aborting a download by id removes its entry from the
registry; cooperative cancellation is signalled exactly when the removed
entry's status was `Progress` (whose status data holds the abort
handle) — a `Connecting` download's executor is not signalled; aborting
a nonexistent or already-removed id is a no-op, so abort is idempotent;
and an executor that does observe the abort resolves as `Aborted` and
writes no `Failed` status. -/
theorem C9_amended (pre : List DownloadItem) (d : DownloadItem)
    (post : List DownloadItem) (i : Nat) (hd : d.id = i)
    (hpre : ∀ e ∈ pre, e.id ≠ i) (hpost : ∀ e ∈ post, e.id ≠ i) :
    abort_download (pre ++ d :: post) i = (pre ++ post, statusAbortHandles d.status)
  ∧ (∀ t fsz h, d.status = .Progress t fsz h → statusAbortHandles d.status = [h])
  ∧ (isConnecting d.status = true → statusAbortHandles d.status = [])
  ∧ abort_download (pre ++ post) i = (pre ++ post, [])
  ∧ handle_exec_outcome (pre ++ post) i .aborted = some (pre ++ post) := by
  have habs : ∀ e ∈ pre ++ post, e.id ≠ i := by
    intro e he
    rcases List.mem_append.mp he with h | h
    · exact hpre e h
    · exact hpost e h
  refine ⟨?_, ?_, ?_, ?_, rfl⟩
  · unfold abort_download
    rw [removeById_found pre d post i hpre hd]
  · intro t fsz h hstat
    rw [hstat]
    rfl
  · intro hc
    cases hst : d.status <;> simp_all [isConnecting, statusAbortHandles]
  · unfold abort_download
    rw [removeById_absent (pre ++ post) i habs]

/-- C9, witness for the amended theorem: aborting the `Progress` entry
(handle 42) removes it and aborts handle 42; aborting again — the id now
absent — is a no-op. -/
theorem C9_witness :
    abort_download [ progItem ] 8 = ([], [42])
  ∧ abort_download ([] : List DownloadItem) 8 = ([], []) := by
  have h := C9_amended [] progItem [] 8 (by decide) (by decide) (by decide)
  exact ⟨h.1, h.2.2.2.1⟩

end IrcDownloader
